import Mathlib

/-!
Verification of the nbscan notebook scanner (nbscan.py).

The development shallowly embeds the program: the filesystem, the random
sampler, the notebook reader and the regular-expression engine are external
collaborators and appear as explicit parameters; every function of the
script itself (build_file_list with its nested filter_argv_files and
add_files_in_dir, scan_files with its nested print_cell_ids, print_hits,
colorized and highlight, and the top-level main glue) is translated
directly from the source.  A Python set of strings becomes a duplicate-free
List String grown by conditional insertion, Python truthiness is made
explicit, printed output becomes a list of lines, and process exit or an
uncaught exception becomes an Outcome value.  String primitives (substring
test, suffix test, splitting, lexicographic comparison) are defined by
structural recursion on the character list so that every definition
evaluates inside the kernel.
-/

/-- Whether the first character list is an initial segment of the second. -/
def charsBeginWith : List Char → List Char → Bool
  | [], _ => true
  | _ :: _, [] => false
  | a :: as, b :: bs => a == b && charsBeginWith as bs

/-- Substring containment on character lists. -/
def charsContain (needle : List Char) : List Char → Bool
  | [] => needle.isEmpty
  | b :: bs => charsBeginWith needle (b :: bs) || charsContain needle bs

/-- Python expression needle in hay for strings: substring containment. -/
def strContains (needle hay : String) : Bool :=
  charsContain needle.toList hay.toList

/-- Python str.endswith. -/
def strEndsWith (s suffix : String) : Bool :=
  charsBeginWith suffix.toList.reverse s.toList.reverse

/-- Python str.startswith. -/
def strBeginsWith (s pre : String) : Bool :=
  charsBeginWith pre.toList s.toList

/-- Splitting a character list on a separator character; mirrors Python
str.split with an explicit separator (adjacent separators give empty
components). -/
def splitOnChar (sep : Char) : List Char → List (List Char)
  | [] => [[]]
  | c :: cs =>
    match splitOnChar sep cs with
    | [] => [[]]
    | r :: rs => if c == sep then [] :: r :: rs else (c :: r) :: rs

/-- Lexicographic order on character lists by code point, the order Python
uses to compare strings. -/
def charListLe : List Char → List Char → Bool
  | [], _ => true
  | _ :: _, [] => false
  | a :: as, b :: bs => if a == b then charListLe as bs else decide (a < b)

/-- Lexicographic order on strings by code point. -/
def strLe (a b : String) : Bool :=
  charListLe a.toList b.toList

/-- The lexicographic order as a relation, for the sorting lemmas. -/
def SLe (a b : String) : Prop :=
  strLe a b = true

instance : DecidableRel SLe :=
  fun a b => instDecidableEqBool (strLe a b) true

/-- Python os.path.join for the two-argument uses in the script. -/
def path_join (path fn : String) : String :=
  if strBeginsWith fn "/" then fn
  else if path = "" ∨ strEndsWith path "/" then path ++ fn
  else path ++ "/" ++ fn

/-- The external filesystem: whether a path names a regular file
(os.path.isfile), and the result of os.walk on a root, as the list of
(directory path, file names in that directory) pairs in walk order. -/
structure FS where
  isfile : String → Bool
  walk : String → List (String × List String)

/-- The parsed command-line arguments (argparse result).  A repeatable
option that was not given is the empty list (Python None and the empty
list are both falsy, and the script only tests truthiness); --random and
the string options keep an explicit Option. -/
structure Args where
  files : List String
  dir : List String
  submitted : List String
  random : Option Int
  grep : Option String
  prompt : Bool
  id : Option String
  code : Bool
  markdown : Bool
  tags : Bool
  nbformat : Int
  plain : Bool

/-- Python truthiness of an optional string: truthy exactly when present
and non-empty. -/
def optStrTruthy : Option String → Bool
  | some s => s != ""
  | none => false

/-- Python set.add on the list modelling a set: append the element unless
it is already present. -/
def pyInsert (s : List String) (x : String) : List String :=
  if x ∈ s then s else s ++ [x]

/-- Python sorted on a list of strings (ascending lexicographic order by
code points). -/
def pySorted (l : List String) : List String :=
  List.insertionSort SLe l

/-- Translation of filter_argv_files: fold over the positional file
arguments, collecting existing files into the set and recording each
missing path (each produces a printed message and forces exit 1). -/
def filter_argv_files (fs : FS) (files : List String) :
    List String × List String :=
  files.foldl
    (fun acc fn =>
      if fs.isfile fn then (pyInsert acc.1 fn, acc.2) else (acc.1, acc.2 ++ [fn]))
    ([], [])

/-- One iteration of the os.walk loop inside add_files_in_dir: skip the
directory when its path contains the substring "/.", skip it when a
non-empty projects list has no member occurring in the path, otherwise add
every file name ending in ".ipynb", joined to the directory path. -/
def add_entry (projects : List String) (files : List String)
    (pe : String × List String) : List String :=
  if strContains "/." pe.1 then files
  else if !projects.isEmpty && !(projects.any fun p => strContains p pe.1) then files
  else
    pe.2.foldl
      (fun acc fn =>
        if strEndsWith fn ".ipynb" then pyInsert acc (path_join pe.1 fn) else acc)
      files

/-- Translation of add_files_in_dir: the nested loops over dirnames and
over the walk entries of each root. -/
def add_files_in_dir (fs : FS) (files : List String) (dirnames : List String)
    (projects : List String) : List String :=
  dirnames.foldl (fun acc dn => (fs.walk dn).foldl (add_entry projects) acc) files

/-- The three ways build_file_list can fail to return a list: exit 1 after
reporting each missing explicit file, exit 1 after reporting that there is
nothing to scan, or an uncaught ValueError raised by random.sample. -/
inductive BuildExit where
  | missing (fns : List String)
  | noFiles
  | sampleError (msg : String)
deriving DecidableEq

/-- Translation of build_file_list.  The sampler parameter models
random.sample(file_set, n); pySorted models the two calls to sorted. -/
def build_file_list (fs : FS)
    (sampler : List String → Int → Except String (List String))
    (args : Args) : Except BuildExit (List String) :=
  let pair := filter_argv_files fs args.files
  if !pair.2.isEmpty then Except.error (BuildExit.missing pair.2)
  else
    let s1 := if args.dir.isEmpty then pair.1
      else add_files_in_dir fs pair.1 args.dir []
    let s2 := if args.submitted.isEmpty then s1
      else add_files_in_dir fs s1 ["submitted"] args.submitted
    if s2.length = 0 then Except.error BuildExit.noFiles
    else
      match args.random with
      | some n =>
          if n != 0 then
            match sampler s2 n with
            | Except.ok l => Except.ok (pySorted l)
            | Except.error m => Except.error (BuildExit.sampleError m)
          else Except.ok (pySorted s2)
      | none => Except.ok (pySorted s2)

/-- Claim-side notion from the spec wording: a path contains a
hidden-directory segment when some slash-separated component begins with a
period. -/
def hasHiddenSegment (path : String) : Bool :=
  (splitOnChar '/' path.toList).any fun comp => charsBeginWith ['.'] comp

/-- Claim-side collection: all files ending in ".ipynb" found under each
root, excluding any directory path containing a hidden-directory segment. -/
def spec_dir_files (fs : FS) (roots : List String) : List String :=
  roots.flatMap fun dn =>
    (fs.walk dn).flatMap fun pe =>
      if hasHiddenSegment pe.1 then []
      else (pe.2.filter fun fn => strEndsWith fn ".ipynb").map (path_join pe.1)

/-- Claim-side collection: all ".ipynb" files under the fixed root
"submitted" whose directory path contains at least one supplied group
name. -/
def spec_submitted_files (fs : FS) (groups : List String) : List String :=
  if groups.isEmpty then []
  else
    (fs.walk "submitted").flatMap fun pe =>
      if !(groups.any fun p => strContains p pe.1) then []
      else (pe.2.filter fun fn => strEndsWith fn ".ipynb").map (path_join pe.1)

/-- Claim-side final list for the file selector, following the wording of
the claim: the lexicographically sorted, de-duplicated union of the
explicit paths that exist, the directory search results and the submitted
search results. -/
def spec_file_list (fs : FS) (args : Args) : List String :=
  pySorted (((args.files.filter fun f => fs.isfile f) ++
    spec_dir_files fs args.dir ++
    spec_submitted_files fs args.submitted).dedup)

/-- Amended collection for the directory search, matching the code: a
directory is excluded exactly when its path contains the substring "/.". -/
def amended_dir_files (fs : FS) (roots : List String) : List String :=
  roots.flatMap fun dn =>
    (fs.walk dn).flatMap fun pe =>
      if strContains "/." pe.1 then []
      else (pe.2.filter fun fn => strEndsWith fn ".ipynb").map (path_join pe.1)

/-- Amended collection for the submitted search, matching the code: the
same substring exclusion, and the group filter applied to the directory
path. -/
def amended_submitted_files (fs : FS) (groups : List String) : List String :=
  if groups.isEmpty then []
  else
    (fs.walk "submitted").flatMap fun pe =>
      if strContains "/." pe.1 then []
      else if !(groups.any fun p => strContains p pe.1) then []
      else (pe.2.filter fun fn => strEndsWith fn ".ipynb").map (path_join pe.1)

/-- Amended union: the de-duplicated union of existing explicit paths,
directory search results and submitted search results, with the exclusion
rules the code actually applies. -/
def amended_file_set (fs : FS) (args : Args) : List String :=
  ((args.files.filter fun f => fs.isfile f) ++
    amended_dir_files fs args.dir ++
    amended_submitted_files fs args.submitted).dedup

/-- One cell of a loaded notebook document: its type string, its source
text, and its grading metadata.  The nbgrader field is none when the cell
metadata has no nbgrader entry, and otherwise holds the optional value of
the grade_id key. -/
structure Cell where
  cell_type : String
  source : String
  nbgrader : Option (Option String)
deriving DecidableEq

/-- Translation of line 135 of the script: the tag of a cell is the
grade_id of its nbgrader metadata when that metadata exists, else None. -/
def cellTag (c : Cell) : Option String :=
  match c.nbgrader with
  | some g => g
  | none => none

/-- Result of the external call nbformat.read(fn, version): a parsed cell
list, one of the two handled failures (NotJSONError carrying its message,
UnicodeDecodeError likewise), or any other raised exception. -/
inductive ReadResult where
  | ok (cells : List Cell)
  | notJSON (msg : String)
  | badEncoding (msg : String)
  | otherExc (msg : String)
deriving DecidableEq

/-- The Python value handed to scan_files as its pattern argument: either
a string (possibly empty) or a falsy non-string (False or None). -/
inductive PyPattern where
  | str (s : String)
  | falsy
deriving DecidableEq

/-- Python truthiness of the pattern value: only a non-empty string is
truthy. -/
def PyPattern.truthy : PyPattern → Bool
  | PyPattern.str s => s != ""
  | PyPattern.falsy => false

/-- The string content of the pattern value, used only when truthy. -/
def PyPattern.value : PyPattern → String
  | PyPattern.str s => s
  | PyPattern.falsy => ""

/-- Translation of line 132 of the script: the cell-type restriction is
"code" when --code was given, "markdown" when --markdown was given, and
None otherwise. -/
def type_restriction (args : Args) : Option String :=
  if args.code then some "code"
  else if args.markdown then some "markdown"
  else none

/-- One iteration of the cell loop of scan_files, translated clause by
clause: the three continue checks in source order, then the append that
depends on --tags.  The research parameter models the external call
re.search(pattern, source, re.IGNORECASE) returning a match or None. -/
def scan_step (args : Args) (pattern : PyPattern)
    (research : String → String → Bool) (acc : List String) (cell : Cell) :
    List String :=
  let tag := cellTag cell
  if (match type_restriction args with
      | some c0 => cell.cell_type != c0
      | none => false) then acc
  else if optStrTruthy args.id && (tag != args.id) then acc
  else if pattern.truthy && !(research pattern.value cell.source) then acc
  else if args.tags then
    match tag with
    | some t => acc ++ [t]
    | none => acc
  else acc ++ [cell.source]

/-- The matches list scan_files accumulates for one loaded document. -/
def scan_matches (args : Args) (pattern : PyPattern)
    (research : String → String → Bool) (cells : List Cell) : List String :=
  cells.foldl (scan_step args pattern research) []

/-- Claim-side predicate: the cell passes the type filter. -/
def passes_type (args : Args) (c : Cell) : Bool :=
  match type_restriction args with
  | some ct => c.cell_type == ct
  | none => true

/-- Claim-side predicate: the cell passes the tag filter. -/
def passes_tag (args : Args) (c : Cell) : Bool :=
  if optStrTruthy args.id then cellTag c == args.id else true

/-- Claim-side predicate: the cell passes the pattern filter. -/
def passes_pat (pattern : PyPattern) (research : String → String → Bool)
    (c : Cell) : Bool :=
  if pattern.truthy then research pattern.value c.source else true

/-- Claim-side predicate: the cell passes all three filters, in the fixed
order type, tag, pattern. -/
def retained (args : Args) (pattern : PyPattern)
    (research : String → String → Bool) (c : Cell) : Bool :=
  passes_type args c && passes_tag args c && passes_pat pattern research c

/-- What one retained cell contributes to the matches list: its tag (when
present) in tags mode, its source otherwise. -/
def cell_contrib (args : Args) (cell : Cell) : List String :=
  if args.tags then
    match cellTag cell with
    | some t => [t]
    | none => []
  else [cell.source]

/-- Translation of the nested highlight function: wrap the text in the
terminal escape sequence selecting color number cn. -/
def highlight (text : String) (cn : Nat) : String :=
  "\x1b[03" ++ toString cn ++ "m" ++ text ++ "\x1b[m"

/-- Translation of the nested colorized function.  The resub parameter
models the external call re.sub(pattern, wrap-in-highlight, text,
re.IGNORECASE). -/
def colorized (args : Args) (pattern : PyPattern)
    (resub : String → String → String) (text : String) : String :=
  if args.plain || !pattern.truthy then text
  else resub pattern.value text

/-- Translation of the nested print_cell_ids function, as the list of
printed lines. -/
def print_cell_ids (fn : String) (lst : List String) : List String :=
  [fn] ++ lst.map (fun tag => "  " ++ " " ++ tag) ++ [""]

/-- Translation of the nested print_hits function, as the list of printed
lines: the colored file name and underline unless --plain, each source
through colorized followed by a colored separator unless --plain, and one
final blank line. -/
def print_hits (args : Args) (pattern : PyPattern)
    (resub : String → String → String) (fn : String) (lst : List String) :
    List String :=
  (if !args.plain then
      [highlight fn 1, highlight (String.mk (List.replicate fn.length '=')) 1]
    else []) ++
  (lst.flatMap fun source =>
    [colorized args pattern resub source] ++
      (if !args.plain then [highlight "---------" 1] else [])) ++
  [""]

/-- The lines one file contributes inside the loop of scan_files: the
reported error line for the two handled read failures, the propagated
exception for any other failure, and otherwise the formatted matches
(nothing when the matches list is empty). -/
def scan_file_output (args : Args) (pattern : PyPattern)
    (research : String → String → Bool) (resub : String → String → String)
    (reader : String → Int → ReadResult) (fn : String) :
    Except String (List String) :=
  match reader fn args.nbformat with
  | ReadResult.notJSON msg => Except.ok [msg ++ " " ++ fn]
  | ReadResult.badEncoding msg => Except.ok [msg ++ " " ++ fn]
  | ReadResult.otherExc msg => Except.error msg
  | ReadResult.ok cells =>
      let hits := scan_matches args pattern research cells
      Except.ok
        (if hits.length > 0 then
          if args.tags then print_cell_ids fn hits
          else print_hits args pattern resub fn hits
        else [])

/-- Translation of the file loop of scan_files: the printed lines, paired
with the message of an uncaught exception when one aborts the loop. -/
def scan_files (args : Args) (pattern : PyPattern)
    (research : String → String → Bool) (resub : String → String → String)
    (reader : String → Int → ReadResult) :
    List String → List String × Option String
  | [] => ([], none)
  | fn :: rest =>
    match scan_file_output args pattern research resub reader fn with
    | Except.error e => ([], some e)
    | Except.ok out =>
        let r := scan_files args pattern research resub reader rest
        (out ++ r.1, r.2)

/-- Translation of the expression args.grep or (args.prompt and pattern)
in the main block: the grep string when given and non-empty, otherwise the
interactively read line when --prompt was given, otherwise a falsy value. -/
def effective_pattern (args : Args) (promptInput : String) : PyPattern :=
  match args.grep with
  | some g =>
      if g != "" then PyPattern.str g
      else if args.prompt then PyPattern.str promptInput
      else PyPattern.falsy
  | none =>
      if args.prompt then PyPattern.str promptInput
      else PyPattern.falsy

/-- How a whole run ends: a normal or explicit exit with the printed lines
and the exit status, or an uncaught exception after printing some lines. -/
inductive Outcome where
  | exited (lines : List String) (code : Nat)
  | raised (lines : List String) (exc : String)
deriving DecidableEq

/-- Translation of the main block: resolve the pattern, build the file
list (exiting with status 1 after the reported messages when it fails,
with the ValueError of random.sample propagating), scan the files, and
finish with status 0 unless an unhandled exception escaped the loop. -/
def run (fs : FS)
    (sampler : List String → Int → Except String (List String))
    (reader : String → Int → ReadResult)
    (research : String → String → Bool) (resub : String → String → String)
    (args : Args) (promptInput : String) : Outcome :=
  let pattern := effective_pattern args promptInput
  match build_file_list fs sampler args with
  | Except.error (BuildExit.missing ms) =>
      Outcome.exited (ms.map fun fn => "No such file: " ++ fn) 1
  | Except.error BuildExit.noFiles => Outcome.exited ["No files to scan"] 1
  | Except.error (BuildExit.sampleError m) => Outcome.raised [] m
  | Except.ok lst =>
      let r := scan_files args pattern research resub reader lst
      match r.2 with
      | some e => Outcome.raised r.1 e
      | none => Outcome.exited r.1 0

/-- The contract of random.sample(population, k) from the Python library
documentation, for a duplicate-free population list: for 0 ≤ k ≤ len it
returns k distinct elements chosen from the population, and for k < 0 or
k > len it raises ValueError. -/
def SamplerContract
    (sampler : List String → Int → Except String (List String)) : Prop :=
  ∀ s n, s.Nodup →
    ((0 ≤ n ∧ n ≤ (s.length : Int)) →
      ∃ l, sampler s n = Except.ok l ∧ l.length = n.toNat ∧ l.Nodup ∧
        ∀ x ∈ l, x ∈ s) ∧
    ((n < 0 ∨ (s.length : Int) < n) → ∃ m, sampler s n = Except.error m)

/-- A concrete sampler satisfying the contract: keep the first k elements
of the sorted population. -/
def take_sampler (s : List String) (n : Int) :
    Except String (List String) :=
  if 0 ≤ n ∧ n ≤ (s.length : Int) then Except.ok ((pySorted s).take n.toNat)
  else Except.error "Sample larger than population or is negative"

instance exceptDecEq {e a : Type} [DecidableEq e] [DecidableEq a] :
    DecidableEq (Except e a) := fun x y =>
  match x, y with
  | Except.ok v, Except.ok w =>
      if h : v = w then isTrue (by rw [h]) else isFalse (by simp [h])
  | Except.error v, Except.error w =>
      if h : v = w then isTrue (by rw [h]) else isFalse (by simp [h])
  | Except.ok _, Except.error _ => isFalse (by simp)
  | Except.error _, Except.ok _ => isFalse (by simp)

/-! ### Concrete instances used by counterexamples and witnesses -/

/-- A sampler that is never consulted in runs without --random. -/
def noSampler : List String → Int → Except String (List String) :=
  fun _ _ => Except.error "unused"

/-- A reader that is never consulted. -/
def noReader : String → Int → ReadResult :=
  fun _ _ => ReadResult.otherExc "unused"

/-- A concrete regular-expression search stub: every search succeeds. -/
def allResearch : String → String → Bool :=
  fun _ _ => true

/-- A concrete substitution stub: the text is returned unchanged. -/
def idResub : String → String → String :=
  fun _ t => t

/-- Arguments with every option off, the base for concrete runs. -/
def baseArgs : Args :=
  { files := [], dir := [], submitted := [], random := none, grep := none,
    prompt := false, id := none, code := false, markdown := false,
    tags := false, nbformat := 4, plain := false }

/-- Filesystem for the C1 counterexample: a hidden root ".h" holding a
notebook, and a visible root "d" holding another. -/
def fsC1 : FS :=
  { isfile := fun _ => false,
    walk := fun r =>
      if r = ".h" then [(".h", ["a.ipynb"])]
      else if r = "d" then [("d", ["b.ipynb"])]
      else [] }

/-- Arguments for the C1 counterexample: two --dir roots, one hidden. -/
def argsC1 : Args :=
  { baseArgs with dir := [".h", "d"] }

/-- Filesystem for the C1 amended witness: one explicit file, one --dir
root with a hidden subdirectory and a non-notebook file, and a submitted
tree with two students. -/
def fsW1 : FS :=
  { isfile := fun p => p = "e",
    walk := fun r =>
      if r = "d" then [("d", ["x.ipynb", "junk.txt"]), ("d/.git", ["y.ipynb"])]
      else if r = "submitted" then
        [("submitted/alice/h", ["a.ipynb"]), ("submitted/bob/h", ["b.ipynb"])]
      else [] }

/-- Arguments for the C1 amended witness. -/
def argsW1 : Args :=
  { baseArgs with files := ["e"], dir := ["d"], submitted := ["alice"] }

/-- The tagged code cell of the example in the spec. -/
def cellQ1 : Cell :=
  { cell_type := "code", source := "def f(): pass", nbgrader := some (some "q1") }

/-- The untagged markdown cell of the example in the spec. -/
def cellMd : Cell :=
  { cell_type := "markdown", source := "# Q1", nbgrader := none }

/-- Arguments selecting code cells only. -/
def argsC2 : Args :=
  { baseArgs with code := true }

/-- Arguments selecting tags-only output and nothing else. -/
def argsC5 : Args :=
  { baseArgs with tags := true }

/-- Arguments with plain rendering on. -/
def argsPlain : Args :=
  { baseArgs with plain := true }

/-- A reader holding one notebook "f" whose only cell is the markdown
cell. -/
def readerC9 : String → Int → ReadResult :=
  fun fn _ => if fn = "f" then ReadResult.ok [cellMd] else ReadResult.otherExc "unused"

/-- Filesystem for the C7 witness: only "a" exists. -/
def fsW7 : FS :=
  { isfile := fun p => p = "a", walk := fun _ => [] }

/-- Arguments for the C7 witness: three explicit files, two missing. -/
def argsW7 : Args :=
  { baseArgs with files := ["a", "b", "c"] }

/-- An empty filesystem. -/
def fsEmpty : FS :=
  { isfile := fun _ => false, walk := fun _ => [] }

/-- Filesystem for the C6 witness: only the explicit file "a" exists. -/
def fsW6 : FS :=
  { isfile := fun p => p = "a", walk := fun _ => [] }

/-- Arguments for the C6 witness: scan the explicit file "a". -/
def argsW6 : Args :=
  { baseArgs with files := ["a"] }

/-- A reader whose only notebook "a" is invalid JSON. -/
def readerW6 : String → Int → ReadResult :=
  fun fn _ => if fn = "a" then ReadResult.notJSON "bad json"
    else ReadResult.otherExc "unused"

/-- Filesystem for the C3 counterexample and witness: "a" and "b" exist. -/
def fsC3 : FS :=
  { isfile := fun p => p = "a" ∨ p = "b", walk := fun _ => [] }

/-- Arguments for the C3 counterexample: one explicit file, --random 0. -/
def argsC3 : Args :=
  { baseArgs with files := ["a"], random := some 0 }

/-- Arguments for the C3 witness: two explicit files, --random 1. -/
def argsW3 : Args :=
  { baseArgs with files := ["a", "b"], random := some 1 }

/-! ### Order properties of the lexicographic comparison -/

theorem charListLe_total : ∀ as bs, charListLe as bs = true ∨ charListLe bs as = true
  | [], _ => Or.inl rfl
  | _ :: _, [] => Or.inr rfl
  | a :: as, b :: bs => by
    by_cases h : a = b
    · subst h
      simpa [charListLe] using charListLe_total as bs
    · have h2 : ¬ b = a := fun e => h e.symm
      rcases lt_or_gt_of_ne h with hlt | hgt
      · left
        simp [charListLe, h, hlt]
      · right
        simp [charListLe, h2, hgt]

theorem charListLe_trans :
    ∀ as bs cs, charListLe as bs = true → charListLe bs cs = true →
      charListLe as cs = true
  | [], _, _, _, _ => rfl
  | _ :: _, [], _, h1, _ => by simp [charListLe] at h1
  | _ :: _, _ :: _, [], _, h2 => by simp [charListLe] at h2
  | a :: as, b :: bs, c :: cs, h1, h2 => by
    by_cases hab : a = b <;> by_cases hbc : b = c
    · subst hab; subst hbc
      simp only [charListLe, beq_self_eq_true, if_true] at h1 h2 ⊢
      exact charListLe_trans as bs cs h1 h2
    · subst hab
      simp [charListLe, hbc] at h2 ⊢
      exact h2
    · subst hbc
      simp [charListLe, hab] at h1 ⊢
      exact h1
    · simp [charListLe, hab] at h1
      simp [charListLe, hbc] at h2
      have hac : a < c := lt_trans h1 h2
      have hac2 : ¬ a = c := ne_of_lt hac
      simp [charListLe, hac2, hac]

theorem charListLe_antisymm :
    ∀ as bs, charListLe as bs = true → charListLe bs as = true → as = bs
  | [], [], _, _ => rfl
  | [], _ :: _, _, h2 => by simp [charListLe] at h2
  | _ :: _, [], h1, _ => by simp [charListLe] at h1
  | a :: as, b :: bs, h1, h2 => by
    by_cases hab : a = b
    · subst hab
      simp only [charListLe, beq_self_eq_true, if_true] at h1 h2
      rw [charListLe_antisymm as bs h1 h2]
    · have hba : ¬ b = a := fun e => hab e.symm
      simp [charListLe, hab] at h1
      simp [charListLe, hba] at h2
      exact absurd h2 (not_lt_of_gt h1)

theorem toList_inj {a b : String} (h : a.toList = b.toList) : a = b := by
  cases a
  cases b
  simp only [String.toList] at h
  simp [h]

instance : IsTotal String SLe :=
  ⟨fun a b => charListLe_total a.toList b.toList⟩

instance : IsTrans String SLe :=
  ⟨fun a b c => charListLe_trans a.toList b.toList c.toList⟩

instance : IsAntisymm String SLe :=
  ⟨fun a b h1 h2 => toList_inj (charListLe_antisymm a.toList b.toList h1 h2)⟩

theorem pySorted_sorted (l : List String) : List.Sorted SLe (pySorted l) :=
  List.sorted_insertionSort SLe l

theorem pySorted_perm (l : List String) : List.Perm (pySorted l) l :=
  List.perm_insertionSort SLe l

/-! ### Membership and duplicate freedom of the growing file set -/

theorem mem_pyInsert (s : List String) (y x : String) :
    x ∈ pyInsert s y ↔ x ∈ s ∨ x = y := by
  unfold pyInsert
  split
  · rename_i hy
    constructor
    · exact Or.inl
    · rintro (h | rfl)
      · exact h
      · exact hy
  · simp

theorem nodup_pyInsert (s : List String) (y : String) (h : s.Nodup) :
    (pyInsert s y).Nodup := by
  unfold pyInsert
  split
  · exact h
  · rename_i hy
    simpa [List.nodup_append, h] using hy

theorem mem_foldl_grow {α : Type} (f : List String → α → List String)
    (C : α → String → Prop)
    (hf : ∀ s a x, x ∈ f s a ↔ x ∈ s ∨ C a x) :
    ∀ (l : List α) (s : List String) (x : String),
      x ∈ l.foldl f s ↔ x ∈ s ∨ ∃ a ∈ l, C a x := by
  intro l
  induction l with
  | nil => intro s x; simp
  | cons a as ih =>
    intro s x
    rw [List.foldl_cons, ih, hf]
    constructor
    · rintro ((h | h) | ⟨b, hb, h⟩)
      · exact Or.inl h
      · exact Or.inr ⟨a, List.mem_cons_self a as, h⟩
      · exact Or.inr ⟨b, List.mem_cons_of_mem a hb, h⟩
    · rintro (h | ⟨b, hb, h⟩)
      · exact Or.inl (Or.inl h)
      · rcases List.mem_cons.mp hb with rfl | hb
        · exact Or.inl (Or.inr h)
        · exact Or.inr ⟨b, hb, h⟩

theorem nodup_foldl_grow {α : Type} (f : List String → α → List String)
    (hf : ∀ s a, (s : List String).Nodup → (f s a).Nodup) :
    ∀ (l : List α) (s : List String), s.Nodup → (l.foldl f s).Nodup := by
  intro l
  induction l with
  | nil => intro s hs; exact hs
  | cons a as ih =>
    intro s hs
    rw [List.foldl_cons]
    exact ih _ (hf s a hs)

/-- What one walk entry contributes to the file set, per the code: nothing
when the directory path contains "/.", nothing when a non-empty projects
list has no member occurring in the path, and otherwise each notebook file
name joined to the directory path. -/
def entry_contrib (projects : List String) (pe : String × List String)
    (x : String) : Prop :=
  strContains "/." pe.1 = false ∧
  (projects.isEmpty = true ∨ ∃ p ∈ projects, strContains p pe.1 = true) ∧
  ∃ fn ∈ pe.2, strEndsWith fn ".ipynb" = true ∧ path_join pe.1 fn = x

theorem mem_inner_fold (pre : String) (fns : List String) (s : List String)
    (x : String) :
    x ∈ fns.foldl
        (fun acc fn =>
          if strEndsWith fn ".ipynb" then pyInsert acc (path_join pre fn) else acc)
        s ↔
      x ∈ s ∨ ∃ fn ∈ fns, strEndsWith fn ".ipynb" = true ∧ path_join pre fn = x := by
  refine mem_foldl_grow _ (fun fn x => strEndsWith fn ".ipynb" = true ∧ path_join pre fn = x)
    (fun s fn x => ?_) fns s x
  by_cases h : strEndsWith fn ".ipynb" = true
  · simp only [h, if_true, mem_pyInsert, true_and]
    rw [eq_comm]
  · have h2 : strEndsWith fn ".ipynb" = false := by simpa using h
    simp [h2]

theorem mem_add_entry (projects : List String) (s : List String)
    (pe : String × List String) (x : String) :
    x ∈ add_entry projects s pe ↔ x ∈ s ∨ entry_contrib projects pe x := by
  unfold add_entry entry_contrib
  by_cases h1 : strContains "/." pe.1 = true
  · simp [h1]
  · have h1f : strContains "/." pe.1 = false := by
      simpa using h1
    by_cases h2 : (!projects.isEmpty && !(projects.any fun p => strContains p pe.1)) = true
    · rw [if_neg (by simp [h1f]), if_pos h2]
      simp only [Bool.and_eq_true, Bool.not_eq_true', List.any_eq_false] at h2
      constructor
      · exact Or.inl
      · rintro (h | ⟨-, hpr, -⟩)
        · exact h
        · rcases hpr with hemp | ⟨p, hp, hp2⟩
          · simp [h2.1] at hemp
          · exact absurd hp2 (h2.2 p hp)
    · rw [if_neg (by simp [h1f]), if_neg h2]
      rw [mem_inner_fold]
      simp only [Bool.and_eq_true, Bool.not_eq_true', not_and, Bool.not_eq_false] at h2
      constructor
      · rintro (h | h)
        · exact Or.inl h
        · refine Or.inr ⟨h1f, ?_, h⟩
          by_cases he : projects.isEmpty = true
          · exact Or.inl he
          · have := h2 (by simpa using he)
            simp only [List.any_eq_true] at this
            exact Or.inr this
      · rintro (h | ⟨-, -, h⟩)
        · exact Or.inl h
        · exact Or.inr h

theorem mem_add_files_in_dir (fs : FS) (s : List String) (dirnames : List String)
    (projects : List String) (x : String) :
    x ∈ add_files_in_dir fs s dirnames projects ↔
      x ∈ s ∨ ∃ dn ∈ dirnames, ∃ pe ∈ fs.walk dn, entry_contrib projects pe x := by
  unfold add_files_in_dir
  refine mem_foldl_grow _ (fun dn x => ∃ pe ∈ fs.walk dn, entry_contrib projects pe x)
    (fun s dn x => ?_) dirnames s x
  exact mem_foldl_grow _ (fun pe x => entry_contrib projects pe x)
    (fun s pe x => mem_add_entry projects s pe x) (fs.walk dn) s x

theorem nodup_add_entry (projects : List String) (s : List String)
    (pe : String × List String) (h : s.Nodup) :
    (add_entry projects s pe).Nodup := by
  unfold add_entry
  split
  · exact h
  · split
    · exact h
    · refine nodup_foldl_grow _ (fun s fn hs => ?_) pe.2 s h
      split
      · exact nodup_pyInsert _ _ hs
      · exact hs

theorem nodup_add_files_in_dir (fs : FS) (s : List String)
    (dirnames : List String) (projects : List String) (h : s.Nodup) :
    (add_files_in_dir fs s dirnames projects).Nodup := by
  unfold add_files_in_dir
  refine nodup_foldl_grow _ (fun s dn hs => ?_) dirnames s h
  exact nodup_foldl_grow _ (fun s pe hs => nodup_add_entry projects s pe hs)
    (fs.walk dn) s hs

theorem filter_argv_aux (fs : FS) (files : List String) :
    ∀ acc : List String × List String,
      (files.foldl
          (fun acc fn =>
            if fs.isfile fn then (pyInsert acc.1 fn, acc.2) else (acc.1, acc.2 ++ [fn]))
          acc).2 = acc.2 ++ files.filter (fun f => !fs.isfile f) ∧
      (∀ x, x ∈ (files.foldl
          (fun acc fn =>
            if fs.isfile fn then (pyInsert acc.1 fn, acc.2) else (acc.1, acc.2 ++ [fn]))
          acc).1 ↔ x ∈ acc.1 ∨ (x ∈ files ∧ fs.isfile x = true)) ∧
      (acc.1.Nodup → (files.foldl
          (fun acc fn =>
            if fs.isfile fn then (pyInsert acc.1 fn, acc.2) else (acc.1, acc.2 ++ [fn]))
          acc).1.Nodup) := by
  induction files with
  | nil => intro acc; simp
  | cons fn rest ih =>
    intro acc
    rw [List.foldl_cons]
    by_cases hfn : fs.isfile fn = true
    · rw [if_pos hfn]
      refine ⟨?_, ?_, ?_⟩
      · rw [(ih _).1]
        simp [hfn]
      · intro x
        rw [(ih _).2.1 x]
        simp only [mem_pyInsert, List.mem_cons]
        constructor
        · rintro ((h | rfl) | h)
          · exact Or.inl h
          · exact Or.inr ⟨Or.inl rfl, hfn⟩
          · exact Or.inr ⟨Or.inr h.1, h.2⟩
        · rintro (h | ⟨rfl | h, hx⟩)
          · exact Or.inl (Or.inl h)
          · exact Or.inl (Or.inr rfl)
          · exact Or.inr ⟨h, hx⟩
      · intro hnd
        exact (ih _).2.2 (nodup_pyInsert _ _ hnd)
    · rw [if_neg hfn]
      have hfn2 : fs.isfile fn = false := by simpa using hfn
      refine ⟨?_, ?_, ?_⟩
      · rw [(ih _).1]
        simp [hfn2]
      · intro x
        rw [(ih _).2.1 x]
        simp only [List.mem_cons]
        constructor
        · rintro (h | h)
          · exact Or.inl h
          · exact Or.inr ⟨Or.inr h.1, h.2⟩
        · rintro (h | ⟨rfl | h, hx⟩)
          · exact Or.inl h
          · rw [hfn2] at hx
            cases hx
          · exact Or.inr ⟨h, hx⟩
      · intro hnd
        exact (ih _).2.2 hnd

theorem filter_argv_files_snd (fs : FS) (files : List String) :
    (filter_argv_files fs files).2 = files.filter (fun f => !fs.isfile f) := by
  have h := (filter_argv_aux fs files ([], [])).1
  simpa [filter_argv_files] using h

theorem mem_filter_argv_files (fs : FS) (files : List String) (x : String) :
    x ∈ (filter_argv_files fs files).1 ↔ x ∈ files ∧ fs.isfile x = true := by
  have h := (filter_argv_aux fs files ([], [])).2.1 x
  simpa [filter_argv_files] using h

theorem nodup_filter_argv_files (fs : FS) (files : List String) :
    (filter_argv_files fs files).1.Nodup := by
  have h := (filter_argv_aux fs files ([], [])).2.2
  simpa [filter_argv_files] using h List.nodup_nil

/-- The file set as accumulated by build_file_list just before the empty
check: explicit files, then the --dir walks, then the submitted walk. -/
def code_file_set (fs : FS) (args : Args) : List String :=
  let pair := filter_argv_files fs args.files
  let s1 := if args.dir.isEmpty then pair.1
    else add_files_in_dir fs pair.1 args.dir []
  if args.submitted.isEmpty then s1
  else add_files_in_dir fs s1 ["submitted"] args.submitted

theorem build_file_list_unfold (fs : FS)
    (sampler : List String → Int → Except String (List String)) (args : Args)
    (h : (filter_argv_files fs args.files).2 = []) :
    build_file_list fs sampler args =
      if (code_file_set fs args).length = 0 then Except.error BuildExit.noFiles
      else
        match args.random with
        | some n =>
            if n != 0 then
              match sampler (code_file_set fs args) n with
              | Except.ok l => Except.ok (pySorted l)
              | Except.error m => Except.error (BuildExit.sampleError m)
            else Except.ok (pySorted (code_file_set fs args))
        | none => Except.ok (pySorted (code_file_set fs args)) := by
  simp only [build_file_list, code_file_set, h]
  simp

theorem mem_code_file_set (fs : FS) (args : Args) (x : String) :
    x ∈ code_file_set fs args ↔
      (x ∈ args.files ∧ fs.isfile x = true) ∨
      (∃ dn ∈ args.dir, ∃ pe ∈ fs.walk dn, entry_contrib [] pe x) ∨
      (args.submitted ≠ [] ∧
        ∃ pe ∈ fs.walk "submitted", entry_contrib args.submitted pe x) := by
  simp only [code_file_set]
  by_cases hd : args.dir.isEmpty <;> by_cases hs : args.submitted.isEmpty
  · rw [if_pos hs, if_pos hd, mem_filter_argv_files]
    have hd2 : args.dir = [] := List.isEmpty_iff.mp hd
    have hs2 : args.submitted = [] := List.isEmpty_iff.mp hs
    simp [hd2, hs2]
  · rw [if_neg hs, if_pos hd, mem_add_files_in_dir, mem_filter_argv_files]
    have hd2 : args.dir = [] := List.isEmpty_iff.mp hd
    have hs2 : args.submitted ≠ [] := by simpa [List.isEmpty_iff] using hs
    simp [hd2, hs2]
  · rw [if_pos hs, if_neg hd, mem_add_files_in_dir, mem_filter_argv_files]
    have hs2 : args.submitted = [] := List.isEmpty_iff.mp hs
    simp [hs2]
  · rw [if_neg hs, if_neg hd, mem_add_files_in_dir, mem_add_files_in_dir,
      mem_filter_argv_files]
    have hs2 : args.submitted ≠ [] := by simpa [List.isEmpty_iff] using hs
    simp [hs2, or_assoc]

theorem nodup_code_file_set (fs : FS) (args : Args) :
    (code_file_set fs args).Nodup := by
  simp only [code_file_set]
  by_cases hd : args.dir.isEmpty <;> by_cases hs : args.submitted.isEmpty
  · rw [if_pos hs, if_pos hd]
    exact nodup_filter_argv_files fs args.files
  · rw [if_neg hs, if_pos hd]
    exact nodup_add_files_in_dir _ _ _ _ (nodup_filter_argv_files fs args.files)
  · rw [if_pos hs, if_neg hd]
    exact nodup_add_files_in_dir _ _ _ _ (nodup_filter_argv_files fs args.files)
  · rw [if_neg hs, if_neg hd]
    exact nodup_add_files_in_dir _ _ _ _
      (nodup_add_files_in_dir _ _ _ _ (nodup_filter_argv_files fs args.files))

theorem mem_amended_dir_entry (pe : String × List String) (x : String) :
    (x ∈ if strContains "/." pe.1 then ([] : List String)
      else (pe.2.filter fun fn => strEndsWith fn ".ipynb").map (path_join pe.1)) ↔
      entry_contrib [] pe x := by
  unfold entry_contrib
  by_cases h : strContains "/." pe.1
  · simp [h]
  · have h2 : strContains "/." pe.1 = false := by simpa using h
    simp only [h2, Bool.false_eq_true, if_false, List.mem_map, List.mem_filter,
      List.isEmpty_nil, true_or, true_and, not_false_iff]
    constructor
    · rintro ⟨fn, ⟨hfn, he⟩, hj⟩
      exact ⟨fn, hfn, he, hj⟩
    · rintro ⟨fn, hfn, he, hj⟩
      exact ⟨fn, ⟨hfn, he⟩, hj⟩

theorem mem_amended_dir_files (fs : FS) (roots : List String) (x : String) :
    x ∈ amended_dir_files fs roots ↔
      ∃ dn ∈ roots, ∃ pe ∈ fs.walk dn, entry_contrib [] pe x := by
  unfold amended_dir_files
  simp only [List.mem_flatMap]
  constructor
  · rintro ⟨dn, hdn, pe, hpe, hx⟩
    exact ⟨dn, hdn, pe, hpe, (mem_amended_dir_entry pe x).mp hx⟩
  · rintro ⟨dn, hdn, pe, hpe, hx⟩
    exact ⟨dn, hdn, pe, hpe, (mem_amended_dir_entry pe x).mpr hx⟩

theorem mem_amended_sub_entry (groups : List String) (pe : String × List String)
    (x : String) (hg : groups ≠ []) :
    (x ∈ if strContains "/." pe.1 then ([] : List String)
      else if !(groups.any fun p => strContains p pe.1) then []
      else (pe.2.filter fun fn => strEndsWith fn ".ipynb").map (path_join pe.1)) ↔
      entry_contrib groups pe x := by
  unfold entry_contrib
  have hgi : groups.isEmpty = false := by
    cases groups
    · exact absurd rfl hg
    · rfl
  by_cases h1 : strContains "/." pe.1
  · simp [h1]
  · have h1f : strContains "/." pe.1 = false := by simpa using h1
    by_cases h2 : (groups.any fun p => strContains p pe.1) = true
    · have h2e : ∃ p ∈ groups, strContains p pe.1 = true := by
        simpa [List.any_eq_true] using h2
      simp only [h1f, Bool.false_eq_true, if_false, h2, Bool.not_true,
        List.mem_map, List.mem_filter, hgi, false_or, true_and, not_false_iff]
      constructor
      · rintro ⟨fn, ⟨hfn, he⟩, hj⟩
        exact ⟨h2e, fn, hfn, he, hj⟩
      · rintro ⟨-, fn, hfn, he, hj⟩
        exact ⟨fn, ⟨hfn, he⟩, hj⟩
    · have h2f : (groups.any fun p => strContains p pe.1) = false := by
        simpa using h2
      simp only [h1f, Bool.false_eq_true, if_false, h2f, Bool.not_false, if_true,
        List.not_mem_nil, false_iff, hgi, false_or]
      rintro ⟨-, ⟨p, hp, hps⟩, -⟩
      rw [List.any_eq_false] at h2f
      exact absurd hps (by simpa using h2f p hp)

theorem mem_amended_submitted_files (fs : FS) (groups : List String) (x : String) :
    x ∈ amended_submitted_files fs groups ↔
      groups ≠ [] ∧ ∃ pe ∈ fs.walk "submitted", entry_contrib groups pe x := by
  unfold amended_submitted_files
  by_cases hg : groups.isEmpty
  · have hg2 : groups = [] := List.isEmpty_iff.mp hg
    simp [hg, hg2]
  · have hg2 : groups ≠ [] := by simpa [List.isEmpty_iff] using hg
    rw [if_neg hg]
    simp only [List.mem_flatMap, hg2, ne_eq, not_false_iff, true_and]
    constructor
    · rintro ⟨pe, hpe, hx⟩
      exact ⟨pe, hpe, (mem_amended_sub_entry groups pe x hg2).mp hx⟩
    · rintro ⟨pe, hpe, hx⟩
      exact ⟨pe, hpe, (mem_amended_sub_entry groups pe x hg2).mpr hx⟩

theorem mem_amended_file_set (fs : FS) (args : Args) (x : String) :
    x ∈ amended_file_set fs args ↔
      (x ∈ args.files ∧ fs.isfile x = true) ∨
      (∃ dn ∈ args.dir, ∃ pe ∈ fs.walk dn, entry_contrib [] pe x) ∨
      (args.submitted ≠ [] ∧
        ∃ pe ∈ fs.walk "submitted", entry_contrib args.submitted pe x) := by
  unfold amended_file_set
  rw [List.mem_dedup]
  simp only [List.mem_append, List.mem_filter, mem_amended_dir_files,
    mem_amended_submitted_files, or_assoc]

/-- The code file set and the amended union hold the same paths. -/
theorem code_eq_amended_mem (fs : FS) (args : Args) (x : String) :
    x ∈ code_file_set fs args ↔ x ∈ amended_file_set fs args := by
  rw [mem_code_file_set, mem_amended_file_set]

theorem pySorted_eq_of_same_mem {l l2 : List String} (h1 : l.Nodup)
    (h2 : l2.Nodup) (h : ∀ x, x ∈ l ↔ x ∈ l2) : pySorted l = pySorted l2 := by
  have hperm : List.Perm l l2 := (List.perm_ext_iff_of_nodup h1 h2).mpr h
  exact List.eq_of_perm_of_sorted
    ((pySorted_perm l).trans (hperm.trans (pySorted_perm l2).symm))
    (pySorted_sorted l) (pySorted_sorted l2)

theorem code_file_set_sorted_eq (fs : FS) (args : Args) :
    pySorted (code_file_set fs args) = pySorted (amended_file_set fs args) :=
  pySorted_eq_of_same_mem (nodup_code_file_set fs args) (List.nodup_dedup _)
    (code_eq_amended_mem fs args)

theorem code_file_set_empty_iff (fs : FS) (args : Args) :
    (code_file_set fs args).length = 0 ↔ amended_file_set fs args = [] := by
  rw [List.length_eq_zero, List.eq_nil_iff_forall_not_mem,
    List.eq_nil_iff_forall_not_mem]
  constructor
  · intro h x hx
    exact h x ((code_eq_amended_mem fs args x).mpr hx)
  · intro h x hx
    exact h x ((code_eq_amended_mem fs args x).mp hx)

/-! ### Claim C1: the file selector -/

/-- Claim C1 counterexample: with the hidden root ".h" passed to --dir,
the claim predicts that the final file list is the sorted de-duplicated
union excluding every path containing a hidden-directory segment, namely
["d/b.ipynb"], but the program returns [".h/a.ipynb", "d/b.ipynb"]: the
code only skips a walk path containing the substring "/.", which misses a
hidden component at the start of the path. -/
theorem C1_counterexample :
    build_file_list fsC1 noSampler argsC1 =
        Except.ok [".h/a.ipynb", "d/b.ipynb"] ∧
    spec_file_list fsC1 argsC1 = ["d/b.ipynb"] ∧
    ([".h/a.ipynb", "d/b.ipynb"] : List String) ≠ ["d/b.ipynb"] :=
  ⟨by decide, by decide, by decide⟩

/-- Claim C1 (amended): when every explicit path exists and no --random
sample is requested, the final file list is exactly the lexicographically
sorted, de-duplicated union of the explicit paths, the ".ipynb" files
found under each --dir root whose walk path does not contain the substring
"/." (equivalently: no non-leading directory component begins with a
period), and the ".ipynb" files under "submitted" with the same exclusion
whose directory path contains at least one supplied group name as a
substring; when that union is empty the run exits instead of producing a
list. -/
theorem C1_amended (fs : FS)
    (sampler : List String → Int → Except String (List String)) (args : Args)
    (hex : ∀ f ∈ args.files, fs.isfile f = true) (hrand : args.random = none) :
    build_file_list fs sampler args =
      if amended_file_set fs args = [] then Except.error BuildExit.noFiles
      else Except.ok (pySorted (amended_file_set fs args)) := by
  have hsnd : (filter_argv_files fs args.files).2 = [] := by
    rw [filter_argv_files_snd, List.filter_eq_nil_iff]
    intro a ha
    simp [hex a ha]
  rw [build_file_list_unfold fs sampler args hsnd, hrand]
  by_cases he : (code_file_set fs args).length = 0
  · rw [if_pos he, if_pos ((code_file_set_empty_iff fs args).mp he)]
  · rw [if_neg he, if_neg (fun h => he ((code_file_set_empty_iff fs args).mpr h))]
    show Except.ok (pySorted (code_file_set fs args)) = _
    rw [code_file_set_sorted_eq]

/-- Witness for the amended claim C1 at a concrete filesystem: the hidden
subdirectory and the non-notebook file are dropped, the alice submission
is kept, the bob submission is filtered out, and the result is sorted. -/
theorem C1_amended_witness :
    build_file_list fsW1 noSampler argsW1 =
      Except.ok ["d/x.ipynb", "e", "submitted/alice/h/a.ipynb"] := by
  rw [C1_amended fsW1 noSampler argsW1 (by decide) rfl]
  decide

/-! ### Structure of the cell filter pipeline -/

theorem type_check_eq (args : Args) (cell : Cell) :
    (match type_restriction args with
      | some c0 => cell.cell_type != c0
      | none => false) = !passes_type args cell := by
  unfold passes_type
  cases type_restriction args <;> simp [bne]

theorem tag_check_eq (args : Args) (cell : Cell) :
    (optStrTruthy args.id && (cellTag cell != args.id)) =
      !passes_tag args cell := by
  unfold passes_tag
  by_cases h : optStrTruthy args.id <;> simp [h, bne]

theorem pat_check_eq (pattern : PyPattern) (research : String → String → Bool)
    (cell : Cell) :
    (pattern.truthy && !(research pattern.value cell.source)) =
      !passes_pat pattern research cell := by
  unfold passes_pat
  by_cases h : pattern.truthy <;> simp [h]

theorem scan_step_eq (args : Args) (pattern : PyPattern)
    (research : String → String → Bool) (acc : List String) (cell : Cell) :
    scan_step args pattern research acc cell =
      acc ++ (if retained args pattern research cell
        then cell_contrib args cell else []) := by
  simp only [scan_step, retained]
  rw [type_check_eq, tag_check_eq, pat_check_eq]
  by_cases h1 : passes_type args cell <;>
    by_cases h2 : passes_tag args cell <;>
    by_cases h3 : passes_pat pattern research cell <;>
    by_cases ht : args.tags <;>
    rcases htag : cellTag cell with _ | t <;>
    simp [h1, h2, h3, ht, htag, cell_contrib]

theorem scan_matches_eq (args : Args) (pattern : PyPattern)
    (research : String → String → Bool) (cells : List Cell) :
    scan_matches args pattern research cells =
      cells.flatMap (fun c =>
        if retained args pattern research c then cell_contrib args c else []) := by
  suffices h : ∀ acc, cells.foldl (scan_step args pattern research) acc =
      acc ++ cells.flatMap (fun c =>
        if retained args pattern research c then cell_contrib args c else []) by
    simpa [scan_matches] using h []
  induction cells with
  | nil => intro acc; simp
  | cons c cs ih =>
    intro acc
    rw [List.foldl_cons, scan_step_eq, ih, List.flatMap_cons, List.append_assoc]

theorem flatMap_if_singleton {a b : Type} (p : a → Bool) (f : a → b) :
    ∀ l : List a, (l.flatMap fun c => if p c then [f c] else []) =
      (l.filter p).map f := by
  intro l
  induction l with
  | nil => rfl
  | cons c cs ih => by_cases h : p c <;> simp [h, ih]

theorem flatMap_if_toList (p : Cell → Bool) (f : Cell → Option String) :
    ∀ l : List Cell, (l.flatMap fun c => if p c then (f c).toList else []) =
      (l.filter p).filterMap f := by
  intro l
  induction l with
  | nil => rfl
  | cons c cs ih =>
    by_cases h : p c
    · rcases hf : f c with _ | t <;> simp [h, hf, ih, List.filterMap_cons]
    · simp [h, ih, List.filterMap_cons]

theorem scan_matches_content (args : Args) (pattern : PyPattern)
    (research : String → String → Bool) (cells : List Cell)
    (h : args.tags = false) :
    scan_matches args pattern research cells =
      (cells.filter (retained args pattern research)).map Cell.source := by
  rw [scan_matches_eq]
  have e : (fun c => if retained args pattern research c
        then cell_contrib args c else []) =
      (fun c : Cell => if retained args pattern research c
        then [c.source] else []) := by
    funext c
    simp [cell_contrib, h]
  rw [e]
  exact flatMap_if_singleton _ _ cells

theorem scan_matches_tags (args : Args) (pattern : PyPattern)
    (research : String → String → Bool) (cells : List Cell)
    (h : args.tags = true) :
    scan_matches args pattern research cells =
      (cells.filter (retained args pattern research)).filterMap cellTag := by
  rw [scan_matches_eq]
  have e : (fun c => if retained args pattern research c
        then cell_contrib args c else []) =
      (fun c : Cell => if retained args pattern research c
        then (cellTag c).toList else []) := by
    funext c
    rcases htag : cellTag c with _ | t <;> simp [cell_contrib, h, htag]
  rw [e]
  exact flatMap_if_toList _ _ cells

/-! ### Claims C2 and C5: the cell filter pipeline and tag output -/

/-- Claim C2: for every document and configuration the pipeline examines
cells in document order and retains exactly the cells passing the type,
tag and pattern checks, with output preserving document order; each check
rejects on its own (failing an earlier check rejects the cell no matter
what the later checks would say, mirroring the short-circuiting continue
chain); a cell without grading metadata has no tag and is rejected
whenever a required tag is configured (a truthy --id); and when a pattern
is configured the pattern check keeps a cell exactly when the
case-insensitive regular-expression search (the research parameter, which
models re.search with re.IGNORECASE, substring semantics) finds a match in
its source. -/
theorem C2_cell_filter_pipeline (args : Args) (pattern : PyPattern)
    (research : String → String → Bool) (cells : List Cell) :
    (args.tags = false →
      scan_matches args pattern research cells =
        (cells.filter (retained args pattern research)).map Cell.source) ∧
    (args.tags = true →
      scan_matches args pattern research cells =
        (cells.filter (retained args pattern research)).filterMap cellTag) ∧
    (∀ c : Cell, retained args pattern research c =
      (passes_type args c && passes_tag args c &&
        passes_pat pattern research c)) ∧
    (∀ (acc : List String) (c : Cell), passes_type args c = false →
      scan_step args pattern research acc c = acc) ∧
    (∀ (acc : List String) (c : Cell), passes_tag args c = false →
      scan_step args pattern research acc c = acc) ∧
    (∀ (acc : List String) (c : Cell), passes_pat pattern research c = false →
      scan_step args pattern research acc c = acc) ∧
    (∀ c : Cell, c.nbgrader = none → cellTag c = none ∧
      (optStrTruthy args.id = true →
        retained args pattern research c = false)) ∧
    (∀ c : Cell, pattern.truthy = true →
      passes_pat pattern research c = research pattern.value c.source) := by
  refine ⟨scan_matches_content args pattern research cells,
    scan_matches_tags args pattern research cells,
    fun c => rfl, ?_, ?_, ?_, ?_, ?_⟩
  · intro acc c h
    rw [scan_step_eq]
    simp [retained, h]
  · intro acc c h
    rw [scan_step_eq]
    simp [retained, h]
  · intro acc c h
    rw [scan_step_eq]
    simp [retained, h]
  · intro c h
    have htag : cellTag c = none := by simp [cellTag, h]
    refine ⟨htag, fun hid => ?_⟩
    have hft : passes_tag args c = false := by
      rcases hidv : args.id with _ | s
      · rw [hidv] at hid
        simp [optStrTruthy] at hid
      · rw [hidv] at hid
        simp [passes_tag, hid, htag, hidv]
    simp [retained, hft]
  · intro c h
    simp [passes_pat, h]

/-- Witness for claim C2 at the example of the spec: filtering the two
example cells by type code keeps only the code cell and yields its
source. -/
theorem C2_witness :
    argsC2.tags = false ∧
    scan_matches argsC2 PyPattern.falsy allResearch [cellQ1, cellMd] =
      ["def f(): pass"] := by
  refine ⟨rfl, ?_⟩
  rw [(C2_cell_filter_pipeline argsC2 PyPattern.falsy allResearch
    [cellQ1, cellMd]).1 rfl]
  decide

/-- Claim C5: in tags-only mode the output is the filterMap of the tag
over the retained cells, so a cell that passes every active filter but has
no grading-metadata tag contributes nothing, wherever it sits in the
document, even when no tag filter was configured. -/
theorem C5_tags_only_output (args : Args) (pattern : PyPattern)
    (research : String → String → Bool) (cells : List Cell)
    (h : args.tags = true) :
    scan_matches args pattern research cells =
      (cells.filter (retained args pattern research)).filterMap cellTag ∧
    (∀ (pre post : List Cell) (c : Cell), cellTag c = none →
      scan_matches args pattern research (pre ++ c :: post) =
        scan_matches args pattern research (pre ++ post)) := by
  refine ⟨scan_matches_tags args pattern research cells h, ?_⟩
  intro pre post c htag
  rw [scan_matches_eq, scan_matches_eq, List.flatMap_append,
    List.flatMap_append, List.flatMap_cons]
  have hz : (if retained args pattern research c
      then cell_contrib args c else []) = [] := by
    by_cases hr : retained args pattern research c <;>
      simp [hr, cell_contrib, h, htag]
  rw [hz, List.nil_append]

/-- Witness for claim C5 at the example of the spec: with --tags and no
other filter, the tagged code cell and the untagged markdown cell yield
exactly the list ["q1"]. -/
theorem C5_witness :
    argsC5.tags = true ∧
    scan_matches argsC5 PyPattern.falsy allResearch [cellQ1, cellMd] =
      ["q1"] := by
  refine ⟨rfl, ?_⟩
  rw [(C5_tags_only_output argsC5 PyPattern.falsy allResearch
    [cellQ1, cellMd] rfl).1]
  decide

/-! ### Claim C4: plain content rendering -/

theorem flatMap_pure (l : List String) : (l.flatMap fun s => [s]) = l := by
  induction l with
  | nil => rfl
  | cons a as ih => simp [ih]

/-- Claim C4 counterexample: in plain rendering a file with the two
retained sources "a" and "b" prints them on consecutive lines followed by
one trailing blank line; the claimed blank-line separation between the two
sources is absent (neither reading of separated-by-blank-lines matches the
actual output). -/
theorem C4_counterexample :
    print_hits argsPlain PyPattern.falsy idResub "f" ["a", "b"] =
      ["a", "b", ""] ∧
    List.intersperse "" ["a", "b"] = ["a", "", "b"] ∧
    (["a", "b", ""] : List String) ≠ ["a", "", "b"] ∧
    (["a", "b", ""] : List String) ≠ ["a", "", "b", ""] :=
  ⟨by decide, by decide, by decide, by decide⟩

/-- Claim C4 (amended): in content mode with plain rendering the output
for a file with matches is each retained source as one printed line, on
consecutive lines, followed by a single trailing blank line, with no file
header, no underline, no separator lines and no color escapes added
(colorized returns every text unchanged); and the retained cells, their
order and their text are exactly those of the highlighted rendering,
because the filter stage never reads the plain flag. -/
theorem C4_plain_rendering (args : Args) (pattern : PyPattern)
    (resub : String → String → String) (research : String → String → Bool)
    (fn : String) (lst : List String) (text : String) (cells : List Cell) :
    print_hits { args with plain := true } pattern resub fn lst =
      lst ++ [""] ∧
    colorized { args with plain := true } pattern resub text = text ∧
    scan_matches { args with plain := true } pattern research cells =
      scan_matches { args with plain := false } pattern research cells := by
  refine ⟨?_, ?_, rfl⟩
  · simp [print_hits, colorized, flatMap_pure]
  · simp [colorized]

/-! ### Claim C9: zero-match files are silent -/

/-- Claim C9: a scanned file that parses but whose retained matches list
is empty contributes no output at all, in content mode (plain or
highlighted) and in tags mode alike: its per-file output is empty, and the
scan of the whole list equals the scan with the file removed. -/
theorem C9_zero_match_silence (args : Args) (pattern : PyPattern)
    (research : String → String → Bool) (resub : String → String → String)
    (reader : String → Int → ReadResult) (fn : String) (cells : List Cell)
    (rest : List String)
    (h1 : reader fn args.nbformat = ReadResult.ok cells)
    (h2 : scan_matches args pattern research cells = []) :
    scan_file_output args pattern research resub reader fn = Except.ok [] ∧
    scan_files args pattern research resub reader (fn :: rest) =
      scan_files args pattern research resub reader rest := by
  have ho : scan_file_output args pattern research resub reader fn =
      Except.ok [] := by
    unfold scan_file_output
    rw [h1]
    simp [h2]
  refine ⟨ho, ?_⟩
  simp only [scan_files, ho]
  simp

/-- Witness for claim C9: a notebook holding only the markdown cell,
scanned with --code, retains nothing and prints nothing. -/
theorem C9_witness :
    readerC9 "f" argsC2.nbformat = ReadResult.ok [cellMd] ∧
    scan_matches argsC2 PyPattern.falsy allResearch [cellMd] = [] ∧
    scan_file_output argsC2 PyPattern.falsy allResearch idResub readerC9 "f" =
      Except.ok [] := by
  refine ⟨by decide, by decide, ?_⟩
  exact (C9_zero_match_silence argsC2 PyPattern.falsy allResearch idResub
    readerC9 "f" [cellMd] [] (by decide) (by decide)).1

/-! ### Claim C6: per-file read failures -/

theorem scan_files_no_exc (args : Args) (pattern : PyPattern)
    (research : String → String → Bool) (resub : String → String → String)
    (reader : String → Int → ReadResult) :
    ∀ files : List String,
      (∀ fn ∈ files, ∀ msg, reader fn args.nbformat ≠ ReadResult.otherExc msg) →
      (scan_files args pattern research resub reader files).2 = none := by
  intro files
  induction files with
  | nil => intro h; rfl
  | cons fn rest ih =>
    intro h
    have hrest := ih fun g hg m => h g (List.mem_cons_of_mem fn hg) m
    rcases hr : reader fn args.nbformat with cells | msg | msg | msg
    · have he : scan_file_output args pattern research resub reader fn =
          Except.ok (if (scan_matches args pattern research cells).length > 0
            then if args.tags
              then print_cell_ids fn (scan_matches args pattern research cells)
              else print_hits args pattern resub fn
                (scan_matches args pattern research cells)
            else []) := by
        unfold scan_file_output
        rw [hr]
      simp only [scan_files, he]
      exact hrest
    · have he : scan_file_output args pattern research resub reader fn =
          Except.ok [msg ++ " " ++ fn] := by
        unfold scan_file_output
        rw [hr]
      simp only [scan_files, he]
      exact hrest
    · have he : scan_file_output args pattern research resub reader fn =
          Except.ok [msg ++ " " ++ fn] := by
        unfold scan_file_output
        rw [hr]
      simp only [scan_files, he]
      exact hrest
    · exact absurd hr (h fn (List.mem_cons_self fn rest) msg)

/-- Claim C6: a read failing as NotJSONError or UnicodeDecodeError is
reported as its message followed by the offending path, the file is
skipped, and scanning continues with the next file; any other exception
propagates unhandled, aborting the loop with no output for that file; and
the run exits with status zero whenever the file list was built and no
read raised an unhandled exception, regardless of how many reads failed in
the two handled ways. -/
theorem C6_read_error_handling (args : Args) (pattern : PyPattern)
    (research : String → String → Bool) (resub : String → String → String)
    (reader : String → Int → ReadResult) :
    (∀ fn msg rest, reader fn args.nbformat = ReadResult.notJSON msg →
      scan_files args pattern research resub reader (fn :: rest) =
        ((msg ++ " " ++ fn) ::
            (scan_files args pattern research resub reader rest).1,
          (scan_files args pattern research resub reader rest).2)) ∧
    (∀ fn msg rest, reader fn args.nbformat = ReadResult.badEncoding msg →
      scan_files args pattern research resub reader (fn :: rest) =
        ((msg ++ " " ++ fn) ::
            (scan_files args pattern research resub reader rest).1,
          (scan_files args pattern research resub reader rest).2)) ∧
    (∀ fn msg rest, reader fn args.nbformat = ReadResult.otherExc msg →
      scan_files args pattern research resub reader (fn :: rest) =
        ([], some msg)) ∧
    (∀ files : List String,
      (∀ fn ∈ files, ∀ msg, reader fn args.nbformat ≠ ReadResult.otherExc msg) →
      (scan_files args pattern research resub reader files).2 = none) ∧
    (∀ (fs : FS) (sampler : List String → Int → Except String (List String))
        (promptInput : String) (lst : List String),
      build_file_list fs sampler args = Except.ok lst →
      (∀ fn ∈ lst, ∀ msg, reader fn args.nbformat ≠ ReadResult.otherExc msg) →
      run fs sampler reader research resub args promptInput =
        Outcome.exited
          (scan_files args (effective_pattern args promptInput) research resub
            reader lst).1 0) := by
  refine ⟨?_, ?_, ?_, scan_files_no_exc args pattern research resub reader, ?_⟩
  · intro fn msg rest h
    have he : scan_file_output args pattern research resub reader fn =
        Except.ok [msg ++ " " ++ fn] := by
      unfold scan_file_output
      rw [h]
    simp only [scan_files, he]
    simp
  · intro fn msg rest h
    have he : scan_file_output args pattern research resub reader fn =
        Except.ok [msg ++ " " ++ fn] := by
      unfold scan_file_output
      rw [h]
    simp only [scan_files, he]
    simp
  · intro fn msg rest h
    have he : scan_file_output args pattern research resub reader fn =
        Except.error msg := by
      unfold scan_file_output
      rw [h]
    simp only [scan_files, he]
  · intro fs sampler promptInput lst hb hok
    have hnone := scan_files_no_exc args (effective_pattern args promptInput)
      research resub reader lst hok
    simp only [run, hb, hnone]

/-- Witness for claim C6: the only file is invalid JSON; its error and
path are reported and the run still exits with status zero. -/
theorem C6_witness :
    run fsW6 noSampler readerW6 allResearch idResub argsW6 "" =
      Outcome.exited ["bad json a"] 0 := by
  rw [(C6_read_error_handling argsW6 PyPattern.falsy allResearch idResub
      readerW6).2.2.2.2 fsW6 noSampler "" ["a"] (by decide)
    (by
      intro fn hfn msg
      rcases List.mem_singleton.mp hfn with rfl
      simp [readerW6])]
  decide

/-! ### Claims C7 and C8: fatal early exits of the file selector -/

/-- Claim C7: when any explicitly named file is missing, the run prints
one "No such file:" line for every missing path (not only the first),
exits with status 1, and scans nothing: the outcome is the same for every
reader and does not mention it, so no document is ever loaded. -/
theorem C7_missing_explicit_files (fs : FS)
    (sampler : List String → Int → Except String (List String))
    (reader : String → Int → ReadResult)
    (research : String → String → Bool) (resub : String → String → String)
    (args : Args) (promptInput : String)
    (h : ∃ f ∈ args.files, fs.isfile f = false) :
    run fs sampler reader research resub args promptInput =
      Outcome.exited
        ((args.files.filter fun f => !fs.isfile f).map
          fun fn => "No such file: " ++ fn) 1 := by
  have hemp : (args.files.filter fun f => !fs.isfile f).isEmpty = false := by
    rcases h with ⟨f, hf, hff⟩
    rcases he : (args.files.filter fun f => !fs.isfile f).isEmpty with _ | _
    · rfl
    · have : f ∈ args.files.filter fun f => !fs.isfile f := by
        rw [List.mem_filter]
        exact ⟨hf, by simp [hff]⟩
      rw [List.isEmpty_iff.mp he] at this
      cases this
  have hb : build_file_list fs sampler args =
      Except.error (BuildExit.missing
        (args.files.filter fun f => !fs.isfile f)) := by
    simp only [build_file_list, filter_argv_files_snd, hemp, Bool.not_false,
      if_true]
  simp only [run, hb]

/-- Witness for claim C7: of the three explicit files only "a" exists;
both missing paths are reported and the exit status is 1. -/
theorem C7_witness :
    run fsW7 noSampler noReader allResearch idResub argsW7 "" =
      Outcome.exited ["No such file: b", "No such file: c"] 1 := by
  rw [C7_missing_explicit_files fsW7 noSampler noReader allResearch idResub
    argsW7 "" ⟨"b", by decide, by decide⟩]
  decide

/-- Claim C8: when every explicit path exists but the union of explicit
and discovered files is empty, the run prints "No files to scan" and exits
with status 1; the outcome is the same for every reader and every sampler
and mentions neither, so the check happens before any document is loaded
and before any sampling. -/
theorem C8_empty_file_set (fs : FS)
    (sampler : List String → Int → Except String (List String))
    (reader : String → Int → ReadResult)
    (research : String → String → Bool) (resub : String → String → String)
    (args : Args) (promptInput : String)
    (hex : ∀ f ∈ args.files, fs.isfile f = true)
    (hempty : amended_file_set fs args = []) :
    run fs sampler reader research resub args promptInput =
      Outcome.exited ["No files to scan"] 1 := by
  have hsnd : (filter_argv_files fs args.files).2 = [] := by
    rw [filter_argv_files_snd, List.filter_eq_nil_iff]
    intro a ha
    simp [hex a ha]
  have hb : build_file_list fs sampler args =
      Except.error BuildExit.noFiles := by
    rw [build_file_list_unfold fs sampler args hsnd,
      if_pos ((code_file_set_empty_iff fs args).mpr hempty)]
  simp only [run, hb]

/-- Witness for claim C8: no explicit files, no roots, nothing to scan. -/
theorem C8_witness :
    run fsEmpty noSampler noReader allResearch idResub baseArgs "" =
      Outcome.exited ["No files to scan"] 1 :=
  C8_empty_file_set fsEmpty noSampler noReader allResearch idResub baseArgs ""
    (by decide) (by decide)

/-! ### Claim C3: random sampling -/

theorem take_sampler_contract : SamplerContract take_sampler := by
  intro s n hnd
  constructor
  · rintro ⟨h0, h1⟩
    refine ⟨(pySorted s).take n.toNat, ?_, ?_, ?_, ?_⟩
    · unfold take_sampler
      rw [if_pos ⟨h0, h1⟩]
    · rw [List.length_take, (pySorted_perm s).length_eq]
      have h2 : n.toNat ≤ s.length := Int.toNat_le.mpr h1
      omega
    · exact ((pySorted_perm s).nodup_iff.mpr hnd).sublist
        (List.take_sublist _ _)
    · intro x hx
      exact (pySorted_perm s).mem_iff.mp ((List.take_sublist _ _).subset hx)
  · intro h
    refine ⟨"Sample larger than population or is negative", ?_⟩
    unfold take_sampler
    rw [if_neg (by rintro ⟨h0, h1⟩; rcases h with h | h <;> omega)]

/-- Claim C3 counterexample: requesting a random sample of size N = 0 from
a set of size M = 1 returns the full one-element set, not 0 elements: the
script treats --random 0 as falsy and skips sampling, while the claim
requires exactly N distinct elements for every N ≤ M. -/
theorem C3_counterexample :
    argsC3.random = some 0 ∧
    (0 : Int) ≤ ((code_file_set fsC3 argsC3).length : Int) ∧
    (code_file_set fsC3 argsC3).length = 1 ∧
    build_file_list fsC3 take_sampler argsC3 = Except.ok ["a"] ∧
    (["a"] : List String).length ≠ 0 :=
  ⟨rfl, by decide, by decide, by decide, by decide⟩

/-- Claim C3 (amended): under the documented contract of random.sample,
when every explicit file exists and the file set is non-empty, --random N
behaves as follows: for 1 ≤ N ≤ M the final list is exactly N distinct
elements drawn from the file set, in lexicographically sorted order; for
N > M the ValueError of random.sample propagates and no list is produced;
and N = 0 is treated as no sampling at all, returning the full sorted
set. -/
theorem C3_random_sampling (fs : FS)
    (sampler : List String → Int → Except String (List String))
    (args : Args) (n : Int)
    (hc : SamplerContract sampler) (hr : args.random = some n)
    (hex : ∀ f ∈ args.files, fs.isfile f = true)
    (hne : (code_file_set fs args).length ≠ 0) :
    (1 ≤ n → n ≤ ((code_file_set fs args).length : Int) →
      ∃ l, build_file_list fs sampler args = Except.ok l ∧
        l.length = n.toNat ∧ l.Nodup ∧
        (∀ x ∈ l, x ∈ code_file_set fs args) ∧ List.Sorted SLe l) ∧
    (((code_file_set fs args).length : Int) < n →
      ∃ m, build_file_list fs sampler args =
        Except.error (BuildExit.sampleError m)) ∧
    (n = 0 → build_file_list fs sampler args =
      Except.ok (pySorted (code_file_set fs args))) := by
  have hsnd : (filter_argv_files fs args.files).2 = [] := by
    rw [filter_argv_files_snd, List.filter_eq_nil_iff]
    intro a ha
    simp [hex a ha]
  have hb := build_file_list_unfold fs sampler args hsnd
  rw [hr, if_neg hne] at hb
  simp only [] at hb
  refine ⟨?_, ?_, ?_⟩
  · intro h1 h2
    have hn0 : (n != 0) = true := by
      rw [bne_iff_ne]
      omega
    rw [if_pos hn0] at hb
    obtain ⟨l, hl, hlen, hnd, hmem⟩ :=
      (hc (code_file_set fs args) n (nodup_code_file_set fs args)).1
        ⟨by omega, h2⟩
    rw [hl] at hb
    refine ⟨pySorted l, hb, ?_, ?_, ?_, pySorted_sorted l⟩
    · rw [(pySorted_perm l).length_eq, hlen]
    · exact (pySorted_perm l).nodup_iff.mpr hnd
    · intro x hx
      exact hmem x ((pySorted_perm l).mem_iff.mp hx)
  · intro h
    have hn0 : (n != 0) = true := by
      rw [bne_iff_ne]
      omega
    rw [if_pos hn0] at hb
    obtain ⟨m, hm⟩ :=
      (hc (code_file_set fs args) n (nodup_code_file_set fs args)).2 (Or.inr h)
    rw [hm] at hb
    exact ⟨m, hb⟩
  · intro h0
    rw [h0] at hb
    simpa using hb

/-- Witness for the amended claim C3: sampling one of the two explicit
files through the concrete contract-satisfying sampler. -/
theorem C3_witness :
    SamplerContract take_sampler ∧
    (∃ l, build_file_list fsC3 take_sampler argsW3 = Except.ok l ∧
      l.length = (1 : Int).toNat ∧ l.Nodup ∧
      (∀ x ∈ l, x ∈ code_file_set fsC3 argsW3) ∧ List.Sorted SLe l) := by
  refine ⟨take_sampler_contract, ?_⟩
  exact (C3_random_sampling fsC3 take_sampler argsW3 1 take_sampler_contract
    rfl (by decide) (by decide)).1 (by decide) (by decide)

/-! ### Claim C10: the empty pattern -/

/-- Claim C10: an empty search pattern is treated as no pattern at all:
--grep "" resolves to the falsy pattern value (argparse forbids --prompt
alongside --grep), an empty --prompt answer resolves to the empty-string
pattern, both are non-truthy, and with a non-truthy pattern the pattern
check passes every cell (a cell passing type and tag is retained) and
colorized returns every text unchanged, so no highlighting is applied. -/
theorem C10_empty_pattern (args : Args) (promptInput : String)
    (research : String → String → Bool) (resub : String → String → String) :
    (args.prompt = false →
      effective_pattern { args with grep := some "" } promptInput =
        PyPattern.falsy) ∧
    effective_pattern { args with grep := none, prompt := true } "" =
      PyPattern.str "" ∧
    PyPattern.truthy (PyPattern.str "") = false ∧
    (∀ pat : PyPattern, pat.truthy = false →
      (∀ c : Cell, passes_pat pat research c = true) ∧
      (∀ (acc : List String) (c : Cell),
        passes_type args c = true → passes_tag args c = true →
        scan_step args pat research acc c = acc ++ cell_contrib args c) ∧
      (∀ text, colorized args pat resub text = text)) := by
  refine ⟨?_, rfl, rfl, ?_⟩
  · intro h
    simp [effective_pattern, h]
  · intro pat hp
    refine ⟨fun c => by simp [passes_pat, hp], ?_,
      fun text => by simp [colorized, hp]⟩
    intro acc c h1 h2
    rw [scan_step_eq]
    simp [retained, h1, h2, passes_pat, hp]

/-- Witness for claim C10 at concrete values: the empty --grep pattern is
falsy, the pattern check passes the markdown cell, and colorized leaves
text unchanged. -/
theorem C10_witness :
    effective_pattern { baseArgs with grep := some "" } "" =
      PyPattern.falsy ∧
    passes_pat PyPattern.falsy allResearch cellMd = true ∧
    colorized baseArgs PyPattern.falsy idResub "text" = "text" := by
  have h := C10_empty_pattern baseArgs "" allResearch idResub
  exact ⟨h.1 rfl, (h.2.2.2 PyPattern.falsy rfl).1 cellMd,
    (h.2.2.2 PyPattern.falsy rfl).2.2 "text"⟩
